import Mathlib

/-!
Shallow embedding of the quiz application in `web_quiz.py`.

The program is a single-file Streamlit script.  Its persistent data are a
mistake ledger (a python dict from question content to a remaining-correct
count, persisted as `mistakes.json`) and a quiz history (a python list of
session records, persisted as `history.json`).  Its transient data are the
session-state fields initialised at module level and mutated by the widget
handlers.  We embed:

* python dicts with string keys as association lists `List (String × Int)`
  together with the operations `lget` (membership / subscript read),
  `lset` (subscript write: replace in place, or append a fresh key at the
  end, as python dict insertion-order semantics do) and `lerase` (`del`);
* python `sorted` on a list of characters as `List.insertionSort (· ≤ ·)`
  (any correct sort of characters produces the same output: the unique
  `≤`-sorted permutation, since `≤` on `Char` is antisymmetric);
* `random.sample(pool, k)` as selection of the elements of `pool` at a
  caller-supplied list of pairwise-distinct in-range positions of length
  `k` (the list of positions is the randomness oracle); `random.sample`
  raises when `k > len(pool)`, which the embedding renders as the start
  transition leaving the state unchanged;
* the Streamlit rerun model: each widget handler is a function from the
  current session state (plus the user's widget inputs) to the next
  session state; a disk write (`save_json`) is recorded in the
  `diskMistakes` / `diskHistory` components of the state;
* `round(x, 1)` applied to `score / total * 100` as exact rational
  arithmetic with round-half-to-even at one decimal (`pyRound1`); the
  binary floating-point detour of the source can deviate from the exact
  rational only when the scaled value is within a double ulp of a tie,
  which does not occur at the values the claims mention.
-/

namespace WebQuiz

/-- Read a key from an association-list dict: python `d[k]` / `k in d`
(`lget m k = some v` iff the key is present with value `v`). -/
def lget : List (String × Int) → String → Option Int
  | [], _ => none
  | (k, v) :: rest, key => if k = key then some v else lget rest key

/-- Write a key into an association-list dict: python `d[k] = v`.  An
existing key keeps its position; a fresh key is appended at the end. -/
def lset : List (String × Int) → String → Int → List (String × Int)
  | [], key, val => [(key, val)]
  | (k, v) :: rest, key, val =>
      if k = key then (k, val) :: rest else (k, v) :: lset rest key val

/-- Delete a key from an association-list dict: python `del d[k]`. -/
def lerase : List (String × Int) → String → List (String × Int)
  | [], _ => []
  | (k, v) :: rest, key => if k = key then rest else (k, v) :: lerase rest key

/-- A loaded question record, as built by `load_questions`:
`content` (题干), `options` (labelled option strings, label = first
character), `answer` (the correct labels, upper-cased and space-stripped),
`explanation` (解析), `knowledge` (知识点), `qtype` (题型 label:
单选题 / 多选题 / 判断题) and `source` (originating file name). -/
structure Question where
  content : String
  options : List String
  answer : String
  explanation : String
  knowledge : String
  qtype : String
  source : String
  deriving Repr, DecidableEq

def defaultQuestion : Question :=
  { content := "", options := [], answer := "", explanation := "",
    knowledge := "", qtype := "", source := "" }

instance : Inhabited Question := ⟨defaultQuestion⟩

/-- One entry of `session_records`: the per-question answer trace appended
by the submit handler. -/
structure TraceRec where
  idx : Nat
  content : String
  qtype : String
  options : List String
  knowledge : String
  source : String
  user_ans : String
  correct_ans : String
  is_correct : Bool
  explanation : String
  deriving Repr, DecidableEq

/-- One history entry (the dict built in the finished block; field names
translate the Chinese JSON keys 日期 / 模式 / 题目数 / 得分 / 正确率(%) /
作答明细). -/
structure HistRec where
  date : String
  mode : String
  numQuestions : Nat
  score : Nat
  accuracy : ℚ
  details : List TraceRec
  deriving DecidableEq

/-- The Streamlit session state (`st.session_state`) together with the two
persisted JSON documents (`diskMistakes` / `diskHistory` record what
`save_json` last wrote). -/
structure AppState where
  app_state : String
  play_mode : String
  selected_q : List Question
  current_idx : Nat
  score : Nat
  answered : Bool
  is_correct : Bool
  round_id : Nat
  mistake_msg : String
  user_ans_display : String
  session_records : List TraceRec
  mistakes : List (String × Int)
  history : List HistRec
  diskMistakes : List (String × Int)
  diskHistory : List HistRec
  deriving DecidableEq

/-- Does `pre` start the list `l`?  (helper for the substring test). -/
def listStartsWith : List Char → List Char → Bool
  | [], _ => true
  | _ :: _, [] => false
  | p :: ps, c :: cs => p = c && listStartsWith ps cs

/-- Does `pat` occur contiguously inside `l`?  (helper for `strContains`). -/
def listContains (pat : List Char) : List Char → Bool
  | [] => pat.isEmpty
  | c :: cs => listStartsWith pat (c :: cs) || listContains pat cs

/-- Python's substring test `pat in s`. -/
def strContains (pat s : String) : Bool := listContains pat.data s.data

/-- The playing block's `is_multi = "多选" in q['type']`. -/
def isMulti (q : Question) : Bool := strContains "多选" q.qtype

/-- Python `sorted` on a list of characters. -/
def sortedChars (cs : List Char) : List Char := List.insertionSort (· ≤ ·) cs

/-- The canonical label string `"".join(sorted(cs))` used by the submit
handler both for the user's multi-choice selection and for the stored
answer string. -/
def canonLabels (cs : List Char) : String := ⟨sortedChars cs⟩

/-- Python `s[0]` on an option string, as a one-character string (the
option's label; the submit handler uses it as `user_ans_str` in the
single-choice branch). -/
def firstChar (s : String) : String := ⟨s.data.take 1⟩

/-- `correct_ans_str = "".join(sorted(list(q['answer'])))`. -/
def correctAnsStrOf (q : Question) : String := canonLabels q.answer.data

/-- The submit handler's computation of `user_ans_str` from the widget
inputs, `none` when the handler rejects the submission (`st.stop()` after
the "please choose an answer" warning): in the multi-choice branch the
checkbox selection `selMulti` must be nonempty and is canonicalised; in
the single-choice branch a radio choice must be present and contributes
its first character. -/
def userAnsStrOf (q : Question) (selMulti : List Char)
    (selSingle : Option String) : Option String :=
  if isMulti q then
    if selMulti = [] then none else some (canonLabels selMulti)
  else
    match selSingle with
    | none => none
    | some opt => some (firstChar opt)

/-- The trace dict appended to `session_records` by the submit handler. -/
def mkTrace (s : AppState) (q : Question) (user_ans corr : String)
    (ok : Bool) : TraceRec :=
  { idx := s.current_idx + 1, content := q.content, qtype := q.qtype,
    options := q.options, knowledge := q.knowledge, source := q.source,
    user_ans := user_ans, correct_ans := corr, is_correct := ok,
    explanation := q.explanation }

/-- Core of the submit handler once `user_ans_str` has been computed
(web_quiz.py lines 300–334): grade by exact string equality against
`correct_ans_str`, update score and the mistake ledger per the outcome
(saving the ledger file whenever it is mutated), and append the answer
trace.  The UI feedback strings assigned to `mistake_msg` are abbreviated
to the markers "removed" / "remain". -/
def submitWith (s : AppState) (q : Question) (user_ans_str : String) :
    AppState :=
  let correct_ans_str := correctAnsStrOf q
  let base := { s with answered := true, user_ans_display := user_ans_str,
                       mistake_msg := "" }
  let afterLedger :=
    if user_ans_str = correct_ans_str then
      let scored := { base with is_correct := true, score := s.score + 1 }
      if s.play_mode = "mistake" then
        match lget s.mistakes q.content with
        | some v =>
            let remain := v - 1
            if remain ≤ 0 then
              let m := lerase s.mistakes q.content
              { scored with mistakes := m, mistake_msg := "removed",
                            diskMistakes := m }
            else
              let m := lset s.mistakes q.content remain
              { scored with mistakes := m, mistake_msg := "remain",
                            diskMistakes := m }
        | none => scored
      else scored
    else
      let m := lset s.mistakes q.content 2
      { base with is_correct := false, mistakes := m, diskMistakes := m }
  { afterLedger with
      session_records := s.session_records ++
        [mkTrace s q user_ans_str correct_ans_str afterLedger.is_correct] }

/-- The whole submit handler (web_quiz.py lines 286–336): reachable only
while the current question is unanswered; reads the current question,
computes `user_ans_str` (stopping, with no state change, when nothing is
selected) and runs `submitWith`. -/
def submit (s : AppState) (selMulti : List Char) (selSingle : Option String) :
    AppState :=
  if s.answered then s
  else
    let q := s.selected_q.getD s.current_idx defaultQuestion
    match userAnsStrOf q selMulti selSingle with
    | none => s
    | some user_ans_str => submitWith s q user_ans_str

/-- The sidebar button 强制重置当前进度 (web_quiz.py lines 152–154): it
assigns `app_state = 'idle'` and reruns, touching nothing else. -/
def forceReset (s : AppState) : AppState := { s with app_state := "idle" }

/-- Floor of a rational (the denominator is positive, so euclidean integer
division of the numerator by it is the floor). -/
def qfloor (x : ℚ) : Int := x.num / (x.den : Int)

/-- Python `round(x, 1)` modelled on exact rationals: round to the nearest
multiple of 1/10, ties to the even multiple (banker's rounding). -/
def pyRound1 (x : ℚ) : ℚ :=
  let y : ℚ := x * 10
  let f : Int := qfloor y
  let frac : ℚ := y - (f : ℚ)
  let r : Int :=
    if frac < 1/2 then f
    else if 1/2 < frac then f + 1
    else if f % 2 = 0 then f else f + 1
  (r : ℚ) / 10

/-- One execution of the finished-state block (web_quiz.py lines 367–393),
i.e. one script rerun while `app_state == 'finished'` and the sidebar page
is one of the quiz pages.  The block unconditionally computes the
accuracy, appends a history record and saves the history file; only then
does it render the back-to-home button, so `ackClicked` (the click that
triggered this rerun, if any) is processed after the append. -/
def finishedBlock (now : String) (s : AppState) (ackClicked : Bool) :
    AppState :=
  let total := s.selected_q.length
  let accuracy := pyRound1 ((s.score : ℚ) / (total : ℚ) * 100)
  let record : HistRec :=
    { date := now,
      mode := if s.play_mode = "random" then "随机测验" else "错题复习",
      numQuestions := total, score := s.score, accuracy := accuracy,
      details := s.session_records }
  let s1 := { s with history := s.history ++ [record],
                     diskHistory := s.history ++ [record] }
  if ackClicked then { s1 with app_state := "idle" } else s1

/-- `random.sample(pool, k)` with the randomness oracle made explicit:
the element of `pool` at each chosen position. -/
def sampleAt (pool : List Question) (positions : List Nat) : List Question :=
  positions.map (fun i => pool.getD i defaultQuestion)

/-- The random-quiz start handler (web_quiz.py lines 216–229).  The
number-input widget only yields `1 ≤ count ≤ len(all_questions)`, and
`random.sample` draws `count` pairwise-distinct in-range positions; a
start outside those bounds does not happen, rendered here as leaving the
state unchanged.  A successful start samples the subset, sets the mode and
the playing state, resets position, score and the answered flag,
increments the round id and clears the trace accumulator. -/
def startRandom (s : AppState) (all_questions : List Question)
    (positions : List Nat) (count : Nat) : AppState :=
  if 1 ≤ count ∧ count ≤ all_questions.length ∧
      positions.length = count ∧ positions.Nodup ∧
      (∀ i ∈ positions, i < all_questions.length) then
    { s with selected_q := sampleAt all_questions positions,
             play_mode := "random", app_state := "playing",
             current_idx := 0, score := 0, answered := false,
             round_id := s.round_id + 1, session_records := [] }
  else s

/-- `mistake_pool`: the loaded questions whose content is currently a key
of the mistake ledger (web_quiz.py line 237). -/
def mistakePool (s : AppState) (all_questions : List Question) :
    List Question :=
  all_questions.filter (fun q => (lget s.mistakes q.content).isSome)

/-- The mistake-review start handler (web_quiz.py lines 231–257).  With an
empty ledger only a congratulation is shown and no start button exists.
With a nonempty ledger but an empty `mistake_pool` the ledger is cleared,
the empty dict saved, and the script stops without starting.  Otherwise
the widget yields `1 ≤ count ≤ len(mistake_pool)` and a start samples from
`mistake_pool` exactly as the random start does, with mode `'mistake'`. -/
def startMistakeReview (s : AppState) (all_questions : List Question)
    (positions : List Nat) (count : Nat) : AppState :=
  if s.mistakes = [] then s
  else
    let pool := mistakePool s all_questions
    if pool = [] then { s with mistakes := [], diskMistakes := [] }
    else if 1 ≤ count ∧ count ≤ pool.length ∧
        positions.length = count ∧ positions.Nodup ∧
        (∀ i ∈ positions, i < pool.length) then
      { s with selected_q := sampleAt pool positions,
               play_mode := "mistake", app_state := "playing",
               current_idx := 0, score := 0, answered := false,
               round_id := s.round_id + 1, session_records := [] }
    else s

/-- The two JSON shapes the mistake file can hold: the legacy list of
content strings, or the current mapping. -/
inductive MistFile where
  | legacy (items : List String)
  | current (m : List (String × Int))
  deriving DecidableEq

/-- The dict comprehension `{q: 2 for q in raw}` of the migration
(web_quiz.py line 119). -/
def migrateList (items : List String) : List (String × Int) :=
  items.foldl (fun m q => lset m q 2) []

/-- Result of the `mistakes` session-state initialisation: the in-memory
ledger and, when a write-back happened, what was saved to the file. -/
structure InitResult where
  mistakes : List (String × Int)
  written : Option (List (String × Int))
  deriving DecidableEq

/-- The `mistakes` session-state initialisation (web_quiz.py lines
116–122): a legacy list is migrated entry-by-entry to the value 2 and the
migrated mapping is saved back to the file; a mapping is used as-is. -/
def initMistakes : MistFile → InitResult
  | .legacy items => let m := migrateList items; ⟨m, some m⟩
  | .current m => ⟨m, none⟩

/-- Key uniqueness, the invariant a python dict guarantees for the
association lists that model it. -/
def keysNodup (m : List (String × Int)) : Prop := (m.map Prod.fst).Nodup

instance (m : List (String × Int)) : Decidable (keysNodup m) := by
  unfold keysNodup; infer_instance

/- Association-list dict lemmas. -/

theorem lget_lset_self (m : List (String × Int)) (k : String) (v : Int) :
    lget (lset m k v) k = some v := by
  induction m with
  | nil => simp [lset, lget]
  | cons hd tl ih =>
      by_cases h : hd.1 = k
      · simp [lset, lget, h]
      · simpa [lset, lget, h] using ih

theorem lget_eq_none_of_not_mem (m : List (String × Int)) (k : String)
    (h : k ∉ m.map Prod.fst) : lget m k = none := by
  induction m with
  | nil => simp [lget]
  | cons hd tl ih =>
      simp only [List.map_cons, List.mem_cons, not_or] at h
      have hne : hd.1 ≠ k := fun e => h.1 e.symm
      simpa [lget, hne] using ih h.2

theorem lget_lerase_self (m : List (String × Int)) (k : String)
    (hnd : keysNodup m) : lget (lerase m k) k = none := by
  induction m with
  | nil => simp [lerase, lget]
  | cons hd tl ih =>
      simp only [keysNodup, List.map_cons, List.nodup_cons] at hnd
      by_cases h : hd.1 = k
      · simp only [lerase, if_pos h]
        exact lget_eq_none_of_not_mem tl k (h ▸ hnd.1)
      · simpa [lerase, lget, h] using ih hnd.2

theorem lget_lset (m : List (String × Int)) (k key : String) (v : Int) :
    lget (lset m k v) key = if k = key then some v else lget m key := by
  induction m with
  | nil => simp [lset, lget]
  | cons hd tl ih =>
      obtain ⟨a, b⟩ := hd
      by_cases h : a = k
      · subst h
        by_cases h2 : a = key
        · subst h2; simp [lset, lget]
        · simp [lset, lget, h2]
      · by_cases h2 : a = key
        · have hk : k ≠ key := fun e => h (h2.trans e.symm)
          simp [lset, lget, h, h2, hk, Ne.symm hk]
        · simp [lset, lget, h, h2, ih]

/- Concrete fixtures used by the witnesses. -/

/-- A single-choice question. -/
def qSingle : Question :=
  { content := "单选Q", options := ["A. 甲", "B. 乙"], answer := "A",
    explanation := "略", knowledge := "k1", qtype := "单选题",
    source := "f.xlsx" }

/-- A multi-choice question whose stored answer string is unsorted. -/
def qMulti : Question :=
  { content := "多选Q", options := ["A. 甲", "B. 乙", "C. 丙", "D. 丁"],
    answer := "CAB", explanation := "略", knowledge := "k2",
    qtype := "多选题", source := "f.xlsx" }

/-- The freshly initialised session state (web_quiz.py lines 127–137),
with both persisted documents empty. -/
def idleState : AppState :=
  { app_state := "idle", play_mode := "", selected_q := [],
    current_idx := 0, score := 0, answered := false, is_correct := false,
    round_id := 0, mistake_msg := "", user_ans_display := "",
    session_records := [], mistakes := [], history := [],
    diskMistakes := [], diskHistory := [] }

/-- A playing state over the given questions, ledger and mode. -/
def playState (mode : String) (qs : List Question)
    (mist : List (String × Int)) : AppState :=
  { idleState with app_state := "playing", play_mode := mode,
                   selected_q := qs, mistakes := mist,
                   diskMistakes := mist }

/-- An accepted submission runs the handler core on the current question
and the computed `user_ans_str`. -/
theorem submit_eq_submitWith (s : AppState) (selM : List Char)
    (selS : Option String) (q : Question) (u : String)
    (hq : s.selected_q.getD s.current_idx defaultQuestion = q)
    (hans : s.answered = false)
    (hu : userAnsStrOf q selM selS = some u) :
    submit s selM selS = submitWith s q u := by
  simp only [submit, hans, Bool.false_eq_true, if_false, hq, hu]

/-- C1: an answer graded wrong sets the mistake-ledger entry for the
current question's content to exactly 2 — whatever the session mode and
whatever the content's previous ledger status or value — and the mutated
ledger is what the handler saves to the mistake file. -/
theorem wrong_answer_sets_ledger_to_two (s : AppState) (selM : List Char)
    (selS : Option String) (q : Question) (u : String)
    (hq : s.selected_q.getD s.current_idx defaultQuestion = q)
    (hans : s.answered = false)
    (hu : userAnsStrOf q selM selS = some u)
    (hw : u ≠ correctAnsStrOf q) :
    lget (submit s selM selS).mistakes q.content = some 2 ∧
      (submit s selM selS).diskMistakes = (submit s selM selS).mistakes := by
  rw [submit_eq_submitWith s selM selS q u hq hans hu]
  simp only [submitWith, if_neg hw]
  exact ⟨lget_lset_self _ _ _, trivial⟩

/-- Fixture for the C1 witness: a random-mode attempt over `qSingle`,
whose content already sits in the ledger with the partial value 1. -/
def stateC1 : AppState := playState "random" [qSingle] [("单选Q", 1)]

/-- Witness for C1: answering `qSingle` with option B (wrong) overwrites
the prior ledger value 1 with 2 and saves. -/
theorem wrong_answer_sets_ledger_to_two_witness :
    stateC1.selected_q.getD stateC1.current_idx defaultQuestion = qSingle ∧
    stateC1.answered = false ∧
    userAnsStrOf qSingle [] (some "B. 乙") = some "B" ∧
    "B" ≠ correctAnsStrOf qSingle ∧
    (lget (submit stateC1 [] (some "B. 乙")).mistakes qSingle.content =
        some 2 ∧
      (submit stateC1 [] (some "B. 乙")).diskMistakes =
        (submit stateC1 [] (some "B. 乙")).mistakes) :=
  ⟨by decide, by decide, by decide, by decide,
    wrong_answer_sets_ledger_to_two stateC1 [] (some "B. 乙") qSingle "B"
      (by decide) (by decide) (by decide) (by decide)⟩

/-- C2: a correct answer in mistake-review mode on a content currently in
the ledger with value `v` decrements it; the key is removed when the
result is ≤ 0 and kept at the reduced value otherwise, and the mutated
ledger is saved. -/
theorem correct_review_answer_decrements (s : AppState) (selM : List Char)
    (selS : Option String) (q : Question) (u : String) (v : Int)
    (hq : s.selected_q.getD s.current_idx defaultQuestion = q)
    (hans : s.answered = false)
    (hu : userAnsStrOf q selM selS = some u)
    (hc : u = correctAnsStrOf q)
    (hm : s.play_mode = "mistake")
    (hv : lget s.mistakes q.content = some v)
    (hnd : keysNodup s.mistakes) :
    lget (submit s selM selS).mistakes q.content =
        (if v - 1 ≤ 0 then none else some (v - 1)) ∧
      (submit s selM selS).diskMistakes = (submit s selM selS).mistakes := by
  rw [submit_eq_submitWith s selM selS q u hq hans hu]
  simp only [submitWith, if_pos hc, hm, if_pos rfl, hv]
  by_cases hz : v - 1 ≤ 0
  · simp only [if_pos hz]
    exact ⟨lget_lerase_self _ _ hnd, rfl⟩
  · simp only [if_neg hz]
    exact ⟨lget_lset_self _ _ _, rfl⟩

/-- Fixture for the C2 witness: a mistake-review attempt over `qSingle`
with ledger value 2. -/
def stateC2a : AppState := playState "mistake" [qSingle] [("单选Q", 2)]

/-- Fixture for the C2 witness: the same review situation with ledger
value 1 (as after one prior correct review answer). -/
def stateC2b : AppState := playState "mistake" [qSingle] [("单选Q", 1)]

/-- Witness for C2: a correct review answer takes the ledger value 2 to 1
(key kept), and from value 1 a further correct answer removes the key. -/
theorem correct_review_answer_decrements_witness :
    stateC2a.selected_q.getD stateC2a.current_idx defaultQuestion =
        qSingle ∧
    stateC2a.answered = false ∧
    userAnsStrOf qSingle [] (some "A. 甲") = some "A" ∧
    "A" = correctAnsStrOf qSingle ∧
    stateC2a.play_mode = "mistake" ∧
    lget stateC2a.mistakes qSingle.content = some 2 ∧
    keysNodup stateC2a.mistakes ∧
    lget (submit stateC2a [] (some "A. 甲")).mistakes qSingle.content =
        some 1 ∧
    lget (submit stateC2b [] (some "A. 甲")).mistakes qSingle.content =
        none := by
  refine ⟨by decide, by decide, by decide, by decide, by decide, by decide,
    by decide, ?_, ?_⟩
  · rw [(correct_review_answer_decrements stateC2a [] (some "A. 甲") qSingle
      "A" 2 (by decide) (by decide) (by decide) (by decide) (by decide)
      (by decide) (by decide)).1]
    decide
  · rw [(correct_review_answer_decrements stateC2b [] (some "A. 甲") qSingle
      "A" 1 (by decide) (by decide) (by decide) (by decide) (by decide)
      (by decide) (by decide)).1]
    decide

/-- Sorting characters is invariant under permutation of the input: the
output is the unique `≤`-sorted list with the same multiset of
characters. -/
theorem sortedChars_perm (l1 l2 : List Char) (h : l1.Perm l2) :
    sortedChars l1 = sortedChars l2 :=
  List.eq_of_perm_of_sorted
    (((List.perm_insertionSort _ l1).trans h).trans
      (List.perm_insertionSort _ l2).symm)
    (List.sorted_insertionSort _ l1) (List.sorted_insertionSort _ l2)

/-- The canonical label string of a selection depends only on the set of
selected labels. -/
theorem canonLabels_perm (l1 l2 : List Char) (h : l1.Perm l2) :
    canonLabels l1 = canonLabels l2 :=
  congrArg String.mk (sortedChars_perm l1 l2 h)

/-- C3: grading compares the canonical sorted label string of the user's
selection with the canonical sorted form of the stored answer string
under exact string equality, and any two selections that are permutations
of each other produce the same canonical answer string — hence the whole
submission outcome, verdict included, is the same. -/
theorem grading_order_independent (s : AppState) (q : Question)
    (sel1 sel2 : List Char)
    (hq : s.selected_q.getD s.current_idx defaultQuestion = q)
    (hm : isMulti q = true) (hne : sel1 ≠ [])
    (hperm : sel1.Perm sel2) :
    canonLabels sel1 = canonLabels sel2 ∧
    submit s sel1 none = submit s sel2 none ∧
    ∀ u : String, (submitWith s q u).is_correct =
      decide (u = correctAnsStrOf q) := by
  have hcanon := canonLabels_perm sel1 sel2 hperm
  refine ⟨hcanon, ?_, ?_⟩
  · by_cases hans : s.answered
    · simp [submit, hans]
    · have hne2 : sel2 ≠ [] := fun e => hne (e ▸ hperm).eq_nil
      have hansf : s.answered = false := by simpa using hans
      have h1 : userAnsStrOf q sel1 none = some (canonLabels sel1) := by
        simp [userAnsStrOf, hm, hne]
      have h2 : userAnsStrOf q sel2 none = some (canonLabels sel2) := by
        simp [userAnsStrOf, hm, hne2]
      rw [submit_eq_submitWith s sel1 none q _ hq hansf h1,
          submit_eq_submitWith s sel2 none q _ hq hansf h2, hcanon]
  · intro u
    by_cases hc : u = correctAnsStrOf q
    · by_cases hpm : s.play_mode = "mistake"
      · cases hlv : lget s.mistakes q.content with
        | none => simp [submitWith, hc, hpm, hlv]
        | some v =>
            by_cases hz : v - 1 ≤ 0 <;> simp [submitWith, hc, hpm, hlv, hz]
      · simp [submitWith, hc, hpm]
    · simp [submitWith, hc]

/-- Fixture for the C3 witness: a random attempt over the multi-choice
question `qMulti` (stored answer string "CAB"). -/
def stateC3 : AppState := playState "random" [qMulti] []

/-- Witness for C3: the selections B,A,C and C,B,A are permutations of
each other, canonicalise identically, and yield identical submission
outcomes; the canonical selection "ABC" is graded correct against the
unsorted stored answer "CAB" by exact comparison of canonical forms. -/
theorem grading_order_independent_witness :
    stateC3.selected_q.getD stateC3.current_idx defaultQuestion = qMulti ∧
    isMulti qMulti = true ∧
    (['B', 'A', 'C'] : List Char) ≠ [] ∧
    (['B', 'A', 'C'] : List Char).Perm ['C', 'B', 'A'] ∧
    (canonLabels ['B', 'A', 'C'] = canonLabels ['C', 'B', 'A'] ∧
      submit stateC3 ['B', 'A', 'C'] none =
        submit stateC3 ['C', 'B', 'A'] none ∧
      (submitWith stateC3 qMulti "ABC").is_correct =
        decide ("ABC" = correctAnsStrOf qMulti)) := by
  have hperm : (['B', 'A', 'C'] : List Char).Perm ['C', 'B', 'A'] :=
    List.isPerm_iff.mp (by decide)
  refine ⟨by decide, by decide, by decide, hperm, ?_⟩
  have h := grading_order_independent stateC3 qMulti ['B', 'A', 'C']
    ['C', 'B', 'A'] (by decide) (by decide) (by decide) hperm
  exact ⟨h.1, h.2.1, h.2.2 "ABC"⟩

/-- C7: a correct answer in random mode, or on a content that is not a
ledger key, leaves the in-memory ledger and the ledger file completely
unchanged. -/
theorem correct_answer_leaves_ledger (s : AppState) (selM : List Char)
    (selS : Option String) (q : Question) (u : String)
    (hq : s.selected_q.getD s.current_idx defaultQuestion = q)
    (hans : s.answered = false)
    (hu : userAnsStrOf q selM selS = some u)
    (hc : u = correctAnsStrOf q)
    (hfr : s.play_mode = "random" ∨ lget s.mistakes q.content = none) :
    (submit s selM selS).mistakes = s.mistakes ∧
      (submit s selM selS).diskMistakes = s.diskMistakes := by
  rw [submit_eq_submitWith s selM selS q u hq hans hu]
  rcases hfr with hr | hn
  · have hpm : ¬s.play_mode = "mistake" := by rw [hr]; decide
    simp [submitWith, hc, hpm]
  · by_cases hpm : s.play_mode = "mistake"
    · simp [submitWith, hc, hpm, hn]
    · simp [submitWith, hc, hpm]

/-- Fixture for the C7 witness: a random attempt over `qSingle` with an
unrelated ledger entry present. -/
def stateC7 : AppState := playState "random" [qSingle] [("别的题", 2)]

/-- Witness for C7: a correct random-mode answer mutates neither the
in-memory ledger nor the ledger file. -/
theorem correct_answer_leaves_ledger_witness :
    stateC7.selected_q.getD stateC7.current_idx defaultQuestion = qSingle ∧
    stateC7.answered = false ∧
    userAnsStrOf qSingle [] (some "A. 甲") = some "A" ∧
    "A" = correctAnsStrOf qSingle ∧
    stateC7.play_mode = "random" ∧
    ((submit stateC7 [] (some "A. 甲")).mistakes = stateC7.mistakes ∧
      (submit stateC7 [] (some "A. 甲")).diskMistakes =
        stateC7.diskMistakes) :=
  ⟨by decide, by decide, by decide, by decide, by decide,
    correct_answer_leaves_ledger stateC7 [] (some "A. 甲") qSingle "A"
      (by decide) (by decide) (by decide) (by decide) (Or.inl (by decide))⟩

/-- C8: a submission with nothing selected (empty checkbox list in the
multi-choice branch, no radio choice in the single-choice branch) is
rejected before any mutation: the resulting state is the input state,
so no trace is appended and neither score, position, answered flag,
ledger nor history changes. -/
theorem empty_selection_rejected (s : AppState) : submit s [] none = s := by
  by_cases hans : s.answered
  · simp [submit, hans]
  · simp only [submit, hans, Bool.false_eq_true, if_false]
    by_cases hm : isMulti (s.selected_q.getD s.current_idx defaultQuestion) <;>
      simp [userAnsStrOf, hm]

/-- C10: the force-reset button only rewrites `app_state` to idle: the
in-memory ledger and the persisted ledger file keep every mutation made by
previously submitted answers, both on an arbitrary state and on any state
just produced by the submit handler. -/
theorem force_reset_keeps_ledger (s : AppState) (selM : List Char)
    (selS : Option String) :
    (forceReset s).mistakes = s.mistakes ∧
    (forceReset s).diskMistakes = s.diskMistakes ∧
    (forceReset s).app_state = "idle" ∧
    (forceReset (submit s selM selS)).mistakes =
      (submit s selM selS).mistakes ∧
    (forceReset (submit s selM selS)).diskMistakes =
      (submit s selM selS).diskMistakes :=
  ⟨rfl, rfl, rfl, rfl, rfl⟩

/-- C4 (refuting the once-per-attempt count): the finished block appends a
history record on every script rerun spent in the finished state, and its
back-to-home button is rendered after the append; hence the normal flow
through one finished attempt — the rerun that enters the finished state
followed by the rerun triggered by clicking the button — appends two
records, not one, before returning to idle. -/
theorem finished_rerun_appends_again (s : AppState) (t1 t2 : String) :
    (finishedBlock t2 (finishedBlock t1 s false) true).history.length =
        s.history.length + 2 ∧
    (finishedBlock t2 (finishedBlock t1 s false) true).app_state =
        "idle" := by
  constructor
  · simp [finishedBlock]
  · simp [finishedBlock]

/-- C5: one execution of the finished block appends to the history a
record carrying the attempt's question count, its score, the rounded
accuracy percentage and the full ordered trace accumulator. -/
theorem finish_record_contents (s : AppState) (t : String) (ack : Bool)
    (_h : 0 < s.selected_q.length) :
    ∃ rec : HistRec,
      (finishedBlock t s ack).history = s.history ++ [rec] ∧
      rec.numQuestions = s.selected_q.length ∧
      rec.score = s.score ∧
      rec.accuracy =
        pyRound1 ((s.score : ℚ) / (s.selected_q.length : ℚ) * 100) ∧
      rec.details = s.session_records := by
  refine ⟨{ date := t,
            mode := if s.play_mode = "random" then "随机测验" else "错题复习",
            numQuestions := s.selected_q.length, score := s.score,
            accuracy :=
              pyRound1 ((s.score : ℚ) / (s.selected_q.length : ℚ) * 100),
            details := s.session_records }, ?_, rfl, rfl, rfl, rfl⟩
  by_cases hack : ack <;> simp [finishedBlock, hack]

/-- Trace fixture for the C5 witness. -/
def traceC5 : TraceRec :=
  { idx := 1, content := "单选Q", qtype := "单选题",
    options := ["A. 甲", "B. 乙"], knowledge := "k1", source := "f.xlsx",
    user_ans := "A", correct_ans := "A", is_correct := true,
    explanation := "略" }

/-- State fixture for the C5 witness: a finished 5-question random attempt
with 3 correct answers and a full 5-entry trace accumulator. -/
def stateC5 : AppState :=
  { idleState with app_state := "finished", play_mode := "random",
                   selected_q := List.replicate 5 qSingle, score := 3,
                   session_records := List.replicate 5 traceC5 }

/-- Witness for C5: the 5-question attempt with 3 correct answers is
archived with score 3, accuracy 60.0 and a 5-entry trace. -/
theorem finish_record_contents_witness :
    0 < stateC5.selected_q.length ∧
    ∃ rec : HistRec,
      (finishedBlock "2024-01-01 00:00:00" stateC5 false).history =
          stateC5.history ++ [rec] ∧
      rec.numQuestions = 5 ∧ rec.score = 3 ∧ rec.accuracy = 60 ∧
      rec.details.length = 5 := by
  refine ⟨by decide, ?_⟩
  obtain ⟨rec, h1, h2, h3, h4, h5⟩ :=
    finish_record_contents stateC5 "2024-01-01 00:00:00" false (by decide)
  refine ⟨rec, h1, ?_, ?_, ?_, ?_⟩
  · rw [h2]; decide
  · rw [h3]; decide
  · rw [h4]; norm_num [stateC5, idleState, pyRound1, qfloor]
  · rw [h5]; decide

/-- Folding dict insertion of the constant 2 over a list of keys yields 2
exactly at the listed keys. -/
theorem lget_foldl_lset (items : List String) (c : String) :
    ∀ m0, lget (items.foldl (fun m q => lset m q 2) m0) c =
      if c ∈ items then some 2 else lget m0 c := by
  induction items with
  | nil => intro m0; simp
  | cons a tl ih =>
      intro m0
      rw [List.foldl_cons, ih (lset m0 a 2), lget_lset]
      rcases eq_or_ne a c with h2 | h2
      · subst h2; simp [List.mem_cons]
      · have h2s : ¬c = a := fun e => h2 e.symm
        by_cases h1 : c ∈ tl <;> simp [List.mem_cons, h1, h2, h2s]

/-- C9: a mistake file in the legacy list-of-contents shape is migrated to
the mapping that sends every listed content to 2 (and nothing else), the
migrated mapping is written back to the file, and a legacy file holding
Q1 and Q2 yields exactly the mapping Q1 ↦ 2, Q2 ↦ 2. -/
theorem legacy_ledger_migration :
    (∀ (items : List String) (c : String),
      lget (initMistakes (MistFile.legacy items)).mistakes c =
          (if c ∈ items then some 2 else none) ∧
      (initMistakes (MistFile.legacy items)).written =
          some (initMistakes (MistFile.legacy items)).mistakes) ∧
    (initMistakes (MistFile.legacy ["Q1", "Q2"])).mistakes =
      [("Q1", 2), ("Q2", 2)] := by
  refine ⟨fun items c => ⟨?_, rfl⟩, by decide⟩
  simpa [initMistakes, migrateList, lget] using lget_foldl_lset items c []

/-- The sampled list has one element per chosen position, every sampled
element belongs to the pool, and distinct elements come out of a
duplicate-free pool. -/
theorem sampleAt_props (pool : List Question) (positions : List Nat)
    (hnd : positions.Nodup) (hlt : ∀ i ∈ positions, i < pool.length) :
    (sampleAt pool positions).length = positions.length ∧
    (∀ q ∈ sampleAt pool positions, q ∈ pool) ∧
    (pool.Nodup → (sampleAt pool positions).Nodup) := by
  refine ⟨by simp [sampleAt], ?_, ?_⟩
  · intro q hq
    simp only [sampleAt, List.mem_map] at hq
    obtain ⟨i, hi, rfl⟩ := hq
    have h := hlt i hi
    rw [List.getD_eq_getElem pool defaultQuestion h]
    exact List.getElem_mem h
  · intro hpool
    refine List.Nodup.map_on ?_ hnd
    intro i hi j hj hij
    have h1 := hlt i hi
    have h2 := hlt j hj
    rw [List.getD_eq_getElem pool defaultQuestion h1,
        List.getD_eq_getElem pool defaultQuestion h2] at hij
    exact (hpool.getElem_inj_iff).mp hij

/-- C6: a quiz start with a valid request samples exactly `count`
elements from the pool (the full question set for a random start, the
ledger-key subset `mistakePool` for a mistake-review start; distinct
elements whenever the pool is duplicate-free) and resets score, position,
the answered flag and the trace accumulator while incrementing the round
id; a count exceeding the pool size starts nothing; and a mistake-review
start with an empty ledger creates no session. -/
theorem quiz_start_samples_and_resets (s : AppState)
    (pool : List Question) (positions : List Nat) (count : Nat) :
    (1 ≤ count → count ≤ pool.length → positions.length = count →
      positions.Nodup → (∀ i ∈ positions, i < pool.length) →
      ((startRandom s pool positions count).app_state = "playing" ∧
        (startRandom s pool positions count).selected_q.length = count ∧
        (∀ q ∈ (startRandom s pool positions count).selected_q, q ∈ pool) ∧
        (pool.Nodup →
          (startRandom s pool positions count).selected_q.Nodup) ∧
        (startRandom s pool positions count).score = 0 ∧
        (startRandom s pool positions count).current_idx = 0 ∧
        (startRandom s pool positions count).answered = false ∧
        (startRandom s pool positions count).round_id = s.round_id + 1 ∧
        (startRandom s pool positions count).session_records = [])) ∧
    (pool.length < count → startRandom s pool positions count = s) ∧
    (s.mistakes = [] → startMistakeReview s pool positions count = s) ∧
    (s.mistakes ≠ [] → mistakePool s pool ≠ [] →
      (mistakePool s pool).length < count →
      startMistakeReview s pool positions count = s) ∧
    (s.mistakes ≠ [] → mistakePool s pool ≠ [] →
      1 ≤ count → count ≤ (mistakePool s pool).length →
      positions.length = count → positions.Nodup →
      (∀ i ∈ positions, i < (mistakePool s pool).length) →
      ((startMistakeReview s pool positions count).app_state = "playing" ∧
        (startMistakeReview s pool positions count).selected_q.length =
          count ∧
        (∀ q ∈ (startMistakeReview s pool positions count).selected_q,
          q ∈ pool ∧ (lget s.mistakes q.content).isSome = true) ∧
        (startMistakeReview s pool positions count).score = 0 ∧
        (startMistakeReview s pool positions count).current_idx = 0 ∧
        (startMistakeReview s pool positions count).answered = false ∧
        (startMistakeReview s pool positions count).round_id =
          s.round_id + 1 ∧
        (startMistakeReview s pool positions count).session_records =
          [])) := by
  refine ⟨?_, ?_, ?_, ?_, ?_⟩
  · intro h1 h2 h3 h4 h5
    obtain ⟨hl, hmem, hnodup⟩ := sampleAt_props pool positions h4 h5
    have hstart : startRandom s pool positions count =
        { s with selected_q := sampleAt pool positions,
                 play_mode := "random", app_state := "playing",
                 current_idx := 0, score := 0, answered := false,
                 round_id := s.round_id + 1, session_records := [] } := by
      simp only [startRandom, if_pos (⟨h1, h2, h3, h4, h5⟩ :
        1 ≤ count ∧ count ≤ pool.length ∧ positions.length = count ∧
          positions.Nodup ∧ ∀ i ∈ positions, i < pool.length)]
    rw [hstart]
    exact ⟨rfl, hl.trans h3, hmem, hnodup, rfl, rfl, rfl, rfl, rfl⟩
  · intro h
    simp only [startRandom]
    rw [if_neg]
    rintro ⟨-, h2, -⟩
    omega
  · intro h
    simp only [startMistakeReview]
    rw [if_pos h]
  · intro h1 h2 hlt
    simp only [startMistakeReview]
    rw [if_neg h1, if_neg h2, if_neg]
    rintro ⟨-, hc, -⟩
    omega
  · intro h1 h2 h3 h4 h5 h6 h7
    obtain ⟨hl, hmem, -⟩ := sampleAt_props (mistakePool s pool) positions h6 h7
    have hstart : startMistakeReview s pool positions count =
        { s with selected_q := sampleAt (mistakePool s pool) positions,
                 play_mode := "mistake", app_state := "playing",
                 current_idx := 0, score := 0, answered := false,
                 round_id := s.round_id + 1, session_records := [] } := by
      simp only [startMistakeReview]
      rw [if_neg h1, if_neg h2, if_pos (⟨h3, h4, h5, h6, h7⟩ :
        1 ≤ count ∧ count ≤ (mistakePool s pool).length ∧
          positions.length = count ∧ positions.Nodup ∧
          ∀ i ∈ positions, i < (mistakePool s pool).length)]
    rw [hstart]
    refine ⟨rfl, hl.trans h5, ?_, rfl, rfl, rfl, rfl, rfl⟩
    intro q hq
    have hqpool := hmem q hq
    simpa [mistakePool, List.mem_filter] using hqpool

/-- State fixture for the C6 witness: an idle state whose ledger holds the
content of `qMulti`. -/
def stateC6 : AppState :=
  { idleState with mistakes := [("多选Q", 2)],
                   diskMistakes := [("多选Q", 2)] }

/-- Witness for C6: over the two-question bank, a valid 2-question random
start plays with a fresh session; a 3-question random start over the
2-question pool is rejected; a mistake-review start on the empty ledger
creates no session; and a valid 1-question mistake-review start samples
only questions whose content is a ledger key. -/
theorem quiz_start_samples_and_resets_witness :
    (1 ≤ 2 ∧ 2 ≤ ([qSingle, qMulti] : List Question).length ∧
      ([1, 0] : List Nat).length = 2 ∧ ([1, 0] : List Nat).Nodup ∧
      (∀ i ∈ ([1, 0] : List Nat),
        i < ([qSingle, qMulti] : List Question).length)) ∧
    ((startRandom stateC6 [qSingle, qMulti] [1, 0] 2).app_state =
        "playing" ∧
      (startRandom stateC6 [qSingle, qMulti] [1, 0] 2).selected_q.length =
        2 ∧
      (startRandom stateC6 [qSingle, qMulti] [1, 0] 2).score = 0 ∧
      (startRandom stateC6 [qSingle, qMulti] [1, 0] 2).round_id =
        stateC6.round_id + 1 ∧
      (startRandom stateC6 [qSingle, qMulti] [1, 0] 2).session_records =
        []) ∧
    startRandom stateC6 [qSingle, qMulti] [1, 0] 3 = stateC6 ∧
    startMistakeReview idleState [qSingle, qMulti] [0] 1 = idleState ∧
    ((startMistakeReview stateC6 [qSingle, qMulti] [0] 1).app_state =
        "playing" ∧
      (∀ q ∈ (startMistakeReview stateC6 [qSingle, qMulti] [0] 1).selected_q,
        q ∈ ([qSingle, qMulti] : List Question) ∧
          (lget stateC6.mistakes q.content).isSome = true)) := by
  obtain ⟨w1, w2, -, -, w5, -, -, w8, w9⟩ :=
    (quiz_start_samples_and_resets stateC6 [qSingle, qMulti] [1, 0] 2).1
      (by decide) (by decide) (by decide) (by decide) (by decide)
  refine ⟨⟨by decide, by decide, by decide, by decide, by decide⟩,
    ⟨w1, w2, w5, w8, w9⟩, ?_, ?_, ?_⟩
  · exact (quiz_start_samples_and_resets stateC6 [qSingle, qMulti]
      [1, 0] 3).2.1 (by decide)
  · exact (quiz_start_samples_and_resets idleState [qSingle, qMulti]
      [0] 1).2.2.1 (by decide)
  · obtain ⟨v1, -, v3, -⟩ :=
      (quiz_start_samples_and_resets stateC6 [qSingle, qMulti]
        [0] 1).2.2.2.2 (by decide) (by decide) (by decide) (by decide)
        (by decide) (by decide) (by decide)
    exact ⟨v1, v3⟩

end WebQuiz
